import Mathlib

/-!
Antrix deployment script (`ignition/modules/4ntrix.js`)

A shallow embedding of the script: the asynchronous function `main` followed by
the handler attached with `main().catch(...)`.

The script talks to the outside only through five framework calls
(`getSigners`, `getAddress`, `getContractFactory`, `deploy`,
`waitForDeployment`), through `process.env`, through `console.log` and through
`process.exitCode`.  Every framework call either returns a value or throws; the
answers are collected in a `World`.  A run yields the ordered trace of the
effects of the script and the final value of `process.exitCode`.
-/

namespace Antrix

/-- A value thrown by a framework call or by the language itself. -/
structure Thrown where
  name : String
  message : String
deriving DecidableEq, Repr

/-- Result of an awaited call: the promise resolves or rejects. -/
inductive Outcome (α : Type) where
  | returns (value : α)
  | throws (error : Thrown)

/-- Deployed contract handle: the members the script touches. -/
structure Contract where
  target : String
  waitForDeployment : Outcome Unit

/-- Contract factory: `deploy` receives the argument list of the call; an
argument is a string or `undefined` (`none`). -/
structure ContractFactory where
  deploy : List (Option String) → Outcome Contract

/-- Signing account: the member the script touches. -/
structure Signer where
  getAddress : Outcome String

/-- Everything the script reads from its surroundings. -/
structure World where
  /-- The call `ethers.getSigners()`. -/
  getSigners : Outcome (List Signer)
  /-- The call `hre.ethers.getContractFactory(name)`. -/
  getContractFactory : String → Outcome ContractFactory
  /-- The object `process.env`: an unset variable reads as `undefined`. -/
  env : String → Option String

/-- Argument of a `console.log` call: a string, or a caught value. -/
inductive LogArg where
  | str (text : String)
  | thrown (error : Thrown)
deriving DecidableEq, Repr

/-- Observable effects of the script, in program order. -/
inductive Event where
  | log (arg : LogArg)
  | getSigners
  | getAddress
  | getContractFactory (name : String)
  | deploy (factory : String) (args : List (Option String))
  | waitForDeployment
  /-- An access through the module `fs` (required on line 3). -/
  | fileSystem (operation : String) (path : String)
deriving DecidableEq, Repr

/-- Line 6: the start banner. -/
def bannerLine : String := "Deployment started!"

/-- Line 10: the template literal with the signer address. -/
def signerLine (address : String) : String :=
  "Deploying the contract with the account: " ++ address

/-- Line 15: the template literal with `contract.target`. -/
def successLine (target : String) : String :=
  "Antrix deployed to " ++ target

/-- The TypeError raised by `deployer.getAddress()` when `deployer` is
`undefined`, that is when the destructured array had no first element. -/
def undefinedDeployer : Thrown :=
  ⟨"TypeError", "Cannot read properties of undefined (reading 'getAddress')"⟩

/-- Lines 5 to 18: `async function main()`.  The result is the trace of the
effects performed and the settlement of the promise `main()` returns. -/
def main (w : World) : List Event × Outcome Unit :=
  let t0 := [Event.log (.str bannerLine), Event.getSigners]
  match w.getSigners with
  | .throws e => (t0, .throws e)
  | .returns signers =>
    match signers.head? with
    | none => (t0, .throws undefinedDeployer)
    | some deployer =>
      let t1 := t0 ++ [Event.getAddress]
      match deployer.getAddress with
      | .throws e => (t1, .throws e)
      | .returns address =>
        let t2 := t1 ++ [Event.log (.str (signerLine address)),
                         Event.getContractFactory "Antrix"]
        match w.getContractFactory "Antrix" with
        | .throws e => (t2, .throws e)
        | .returns factory =>
          let args := [w.env "OWNER_ADDRESS"]
          let t3 := t2 ++ [Event.deploy "Antrix" args]
          match factory.deploy args with
          | .throws e => (t3, .throws e)
          | .returns contract =>
            let t4 := t3 ++ [Event.waitForDeployment]
            match contract.waitForDeployment with
            | .throws e => (t4, .throws e)
            | .returns _ =>
              (t4 ++ [Event.log (.str (successLine contract.target))], .returns ())

/-- State of the process when the script has finished. -/
structure Process where
  trace : List Event
  /-- The property `process.exitCode`: `none` while it was never assigned. -/
  exitCode : Option Nat
deriving DecidableEq, Repr

/-- Lines 38 to 41: `main().catch(error => ...)`, the whole script. -/
def script (w : World) : Process :=
  match main w with
  | (t, .returns _) => { trace := t, exitCode := none }
  | (t, .throws error) =>
    { trace := t ++ [Event.log (.thrown error)], exitCode := some 1 }

/-- Exit status of the process: the assigned `process.exitCode`, else `0`. -/
def Process.status (p : Process) : Nat := p.exitCode.getD 0

/-- The arguments of the `console.log` calls, in order. -/
def Process.stdout (p : Process) : List LogArg :=
  p.trace.filterMap fun
    | .log a => some a
    | _ => none

/-- The calls to `deploy`: factory name and argument list, in order. -/
def Process.deployCalls (p : Process) : List (String × List (Option String)) :=
  p.trace.filterMap fun
    | .deploy f args => some (f, args)
    | _ => none

/-- The names passed to `getContractFactory`, in order. -/
def Process.factoryLookups (p : Process) : List String :=
  p.trace.filterMap fun
    | .getContractFactory n => some n
    | _ => none

/-- Every step of `main` returns: a first signer exists, its `getAddress`
returns, the factory is resolved, `deploy` returns a handle and
`waitForDeployment` on that handle returns. -/
def AllStepsReturn (w : World) : Prop :=
  ∃ s rest a f c,
    w.getSigners = .returns (s :: rest) ∧
    s.getAddress = .returns a ∧
    w.getContractFactory "Antrix" = .returns f ∧
    f.deploy [w.env "OWNER_ADDRESS"] = .returns c ∧
    c.waitForDeployment = .returns ()

/-- A deployed and confirmed contract handle. -/
def sampleContract : Contract := ⟨"0xC0FFEE", .returns ()⟩

/-- A world in which every step returns. -/
def sampleWorld : World where
  getSigners := .returns [⟨.returns "0xA11CE"⟩]
  getContractFactory := fun _ => .returns ⟨fun _ => .returns sampleContract⟩
  env := fun n => if n = "OWNER_ADDRESS" then some "0xB0B" else none

/-- Some step of `main` throws: one of the five framework calls rejects, or
the array returned by `getSigners` has no first element, so that the member
access `deployer.getAddress` raises a TypeError. -/
def SomeStepThrows (w : World) : Prop :=
  (∃ e, w.getSigners = .throws e) ∨
  w.getSigners = .returns [] ∨
  (∃ s rest e, w.getSigners = .returns (s :: rest) ∧ s.getAddress = .throws e) ∨
  (∃ s rest a e, w.getSigners = .returns (s :: rest) ∧ s.getAddress = .returns a ∧
    w.getContractFactory "Antrix" = .throws e) ∨
  (∃ s rest a f e, w.getSigners = .returns (s :: rest) ∧ s.getAddress = .returns a ∧
    w.getContractFactory "Antrix" = .returns f ∧
    f.deploy [w.env "OWNER_ADDRESS"] = .throws e) ∨
  (∃ s rest a f c e, w.getSigners = .returns (s :: rest) ∧ s.getAddress = .returns a ∧
    w.getContractFactory "Antrix" = .returns f ∧
    f.deploy [w.env "OWNER_ADDRESS"] = .returns c ∧
    c.waitForDeployment = .throws e)

/-- A world in which the provider cannot be reached: `getSigners` rejects. -/
def unreachableWorld : World where
  getSigners := .throws ⟨"Error", "could not detect network"⟩
  getContractFactory := fun _ => .returns ⟨fun _ => .returns sampleContract⟩
  env := fun n => if n = "OWNER_ADDRESS" then some "0xB0B" else none

/-- A world with `OWNER_ADDRESS` unset whose factory rejects an `undefined`
constructor argument. -/
def strictWorld : World where
  getSigners := .returns [⟨.returns "0xA11CE"⟩]
  getContractFactory := fun _ => .returns ⟨fun
    | [some _] => .returns sampleContract
    | _ => .throws ⟨"TypeError", "invalid address"⟩⟩
  env := fun _ => none

/-- A world in which the network rejects the deployment. -/
def rejectingWorld : World where
  getSigners := .returns [⟨.returns "0xA11CE"⟩]
  getContractFactory := fun _ => .returns ⟨fun _ => .throws ⟨"Error", "insufficient funds"⟩⟩
  env := fun n => if n = "OWNER_ADDRESS" then some "0xB0B" else none

/-- A world in which the artifact `Antrix` was never compiled. -/
def missingArtifactWorld : World where
  getSigners := .returns [⟨.returns "0xA11CE"⟩]
  getContractFactory := fun _ => .throws ⟨"HardhatError", "artifact not found"⟩
  env := fun n => if n = "OWNER_ADDRESS" then some "0xB0B" else none

/-- A world without any configured account: `getSigners` returns `[]`. -/
def noSignerWorld : World where
  getSigners := .returns []
  getContractFactory := fun _ => .returns ⟨fun _ => .returns sampleContract⟩
  env := fun n => if n = "OWNER_ADDRESS" then some "0xB0B" else none

/-- A contract handle whose confirmation never arrives in time. -/
def staleContract : Contract := ⟨"0xDEAD", .throws ⟨"Error", "timeout"⟩⟩

/-- A world in which the transaction is submitted but never confirmed. -/
def timeoutWorld : World where
  getSigners := .returns [⟨.returns "0xA11CE"⟩]
  getContractFactory := fun _ => .returns ⟨fun _ => .returns staleContract⟩
  env := fun n => if n = "OWNER_ADDRESS" then some "0xB0B" else none

/-- The framework encodes the constructor arguments before it sends anything
and refuses `undefined` where the constructor of `Antrix` expects the owner
address: on the factory resolved for `Antrix`, `deploy(undefined)` throws. -/
def RejectsUndefinedOwner (w : World) : Prop :=
  ∀ f, w.getContractFactory "Antrix" = .returns f → ∃ e, f.deploy [none] = .throws e

/-- The contract a call to `deploy` puts on the network: the target of the
handle the call returns.  A call that throws, or one on a factory that is not
resolved, sends no transaction. -/
def World.created (w : World) (call : String × List (Option String)) : Option String :=
  match w.getContractFactory call.1 with
  | .throws _ => none
  | .returns f =>
    match f.deploy call.2 with
    | .throws _ => none
    | .returns c => some c.target

/-- The deployment transactions a run submits: one for every call to `deploy`
made by the script that returned a handle. -/
def submitted (w : World) : List String :=
  (script w).deployCalls.filterMap w.created

/-- One invocation of the script on a network whose answers depend on the
contracts deployed so far: the final state of the process, and the contracts
on the network afterwards. -/
def runOn (net : List String → World) (chain : List String) : Process × List String :=
  ((script (net chain)), chain ++ submitted (net chain))

/-- A new contract never takes the address of one already on the network. -/
def FreshAt (net : List String → World) (chain : List String) : Prop :=
  ∀ f args c, (net chain).getContractFactory "Antrix" = .returns f →
    f.deploy args = .returns c → c.target ∉ chain

/-- A network that answers every call and places the first contract at one
address and every later one at another. -/
def sampleNet (chain : List String) : World where
  getSigners := .returns [⟨.returns "0xA11CE"⟩]
  getContractFactory := fun _ => .returns ⟨fun _ =>
    .returns ⟨if chain = [] then "0xC0FFEE" else "0xFACADE", .returns ()⟩⟩
  env := fun n => if n = "OWNER_ADDRESS" then some "0xB0B" else none

/-- The accesses to the file system, in order. -/
def Process.fileAccesses (p : Process) : List (String × String) :=
  p.trace.filterMap fun
    | .fileSystem op path => some (op, path)
    | _ => none

/-! ## Auxiliary facts -/

theorem bannerLine_ne_successLine (t : String) : bannerLine ≠ successLine t := by
  intro h
  have h2 := congrArg String.data h
  simp [bannerLine, successLine, String.data_append] at h2

theorem signerLine_ne_successLine (a t : String) : signerLine a ≠ successLine t := by
  intro h
  have h2 := congrArg String.data h
  simp [signerLine, successLine, String.data_append] at h2

theorem bannerLine_ne_signerLine (a : String) : bannerLine ≠ signerLine a := by
  intro h
  have h2 := congrArg String.data h
  simp [bannerLine, signerLine, String.data_append] at h2

theorem successLine_injective (t u : String) (h : successLine t = successLine u) : t = u := by
  have h2 := congrArg String.data h
  simp only [successLine, String.data_append, List.append_cancel_left_eq] at h2
  exact String.ext h2

/-- The seven ways a run can go, each with the final state of the process. -/
theorem script_cases (w : World) :
    (∃ e, w.getSigners = .throws e ∧
      script w = ⟨[.log (.str bannerLine), .getSigners, .log (.thrown e)], some 1⟩) ∨
    (w.getSigners = .returns [] ∧
      script w = ⟨[.log (.str bannerLine), .getSigners,
        .log (.thrown undefinedDeployer)], some 1⟩) ∨
    (∃ s rest e, w.getSigners = .returns (s :: rest) ∧ s.getAddress = .throws e ∧
      script w = ⟨[.log (.str bannerLine), .getSigners, .getAddress,
        .log (.thrown e)], some 1⟩) ∨
    (∃ s rest a e, w.getSigners = .returns (s :: rest) ∧ s.getAddress = .returns a ∧
      w.getContractFactory "Antrix" = .throws e ∧
      script w = ⟨[.log (.str bannerLine), .getSigners, .getAddress,
        .log (.str (signerLine a)), .getContractFactory "Antrix",
        .log (.thrown e)], some 1⟩) ∨
    (∃ s rest a f e, w.getSigners = .returns (s :: rest) ∧ s.getAddress = .returns a ∧
      w.getContractFactory "Antrix" = .returns f ∧
      f.deploy [w.env "OWNER_ADDRESS"] = .throws e ∧
      script w = ⟨[.log (.str bannerLine), .getSigners, .getAddress,
        .log (.str (signerLine a)), .getContractFactory "Antrix",
        .deploy "Antrix" [w.env "OWNER_ADDRESS"], .log (.thrown e)], some 1⟩) ∨
    (∃ s rest a f c e, w.getSigners = .returns (s :: rest) ∧ s.getAddress = .returns a ∧
      w.getContractFactory "Antrix" = .returns f ∧
      f.deploy [w.env "OWNER_ADDRESS"] = .returns c ∧
      c.waitForDeployment = .throws e ∧
      script w = ⟨[.log (.str bannerLine), .getSigners, .getAddress,
        .log (.str (signerLine a)), .getContractFactory "Antrix",
        .deploy "Antrix" [w.env "OWNER_ADDRESS"], .waitForDeployment,
        .log (.thrown e)], some 1⟩) ∨
    (∃ s rest a f c, w.getSigners = .returns (s :: rest) ∧ s.getAddress = .returns a ∧
      w.getContractFactory "Antrix" = .returns f ∧
      f.deploy [w.env "OWNER_ADDRESS"] = .returns c ∧
      c.waitForDeployment = .returns () ∧
      script w = ⟨[.log (.str bannerLine), .getSigners, .getAddress,
        .log (.str (signerLine a)), .getContractFactory "Antrix",
        .deploy "Antrix" [w.env "OWNER_ADDRESS"], .waitForDeployment,
        .log (.str (successLine c.target))], none⟩) := by
  cases h1 : w.getSigners with
  | throws e => left; exact ⟨e, rfl, by simp [script, main, h1]⟩
  | returns signers =>
    cases signers with
    | nil => right; left; exact ⟨rfl, by simp [script, main, h1]⟩
    | cons s rest =>
      cases h2 : s.getAddress with
      | throws e =>
        right; right; left
        exact ⟨s, rest, e, rfl, h2, by simp [script, main, h1, h2]⟩
      | returns a =>
        cases h3 : w.getContractFactory "Antrix" with
        | throws e =>
          right; right; right; left
          exact ⟨s, rest, a, e, rfl, h2, rfl, by simp [script, main, h1, h2, h3]⟩
        | returns f =>
          cases h4 : f.deploy [w.env "OWNER_ADDRESS"] with
          | throws e =>
            right; right; right; right; left
            exact ⟨s, rest, a, f, e, rfl, h2, rfl, h4,
              by simp [script, main, h1, h2, h3, h4]⟩
          | returns c =>
            cases h5 : c.waitForDeployment with
            | throws e =>
              right; right; right; right; right; left
              exact ⟨s, rest, a, f, c, e, rfl, h2, rfl, h4, h5,
                by simp [script, main, h1, h2, h3, h4, h5]⟩
            | returns u =>
              right; right; right; right; right; right
              exact ⟨s, rest, a, f, c, rfl, h2, rfl, h4, h5,
                by simp [script, main, h1, h2, h3, h4, h5]⟩

theorem exitCode_of_allStepsReturn (w : World) (h : AllStepsReturn w) :
    (script w).exitCode = none := by
  obtain ⟨s, rest, a, f, c, h1, h2, h3, h4, h5⟩ := h
  simp [script, main, h1, h2, h3, h4, h5]

theorem exitCode_of_someStepThrows (w : World) (h : SomeStepThrows w) :
    (script w).exitCode = some 1 := by
  rcases h with ⟨e, h1⟩ | h1 | ⟨s, rest, e, h1, h2⟩ | ⟨s, rest, a, e, h1, h2, h3⟩ |
    ⟨s, rest, a, f, e, h1, h2, h3, h4⟩ | ⟨s, rest, a, f, c, e, h1, h2, h3, h4, h5⟩
  · simp [script, main, h1]
  · simp [script, main, h1]
  · simp [script, main, h1, h2]
  · simp [script, main, h1, h2, h3]
  · simp [script, main, h1, h2, h3, h4]
  · simp [script, main, h1, h2, h3, h4, h5]

theorem allStepsReturn_or_someStepThrows (w : World) :
    AllStepsReturn w ∨ SomeStepThrows w := by
  rcases script_cases w with ⟨e, h1, -⟩ | ⟨h1, -⟩ | ⟨s, rest, e, h1, h2, -⟩ |
    ⟨s, rest, a, e, h1, h2, h3, -⟩ | ⟨s, rest, a, f, e, h1, h2, h3, h4, -⟩ |
    ⟨s, rest, a, f, c, e, h1, h2, h3, h4, h5, -⟩ | ⟨s, rest, a, f, c, h1, h2, h3, h4, h5, -⟩
  · exact Or.inr (Or.inl ⟨e, h1⟩)
  · exact Or.inr (Or.inr (Or.inl h1))
  · exact Or.inr (Or.inr (Or.inr (Or.inl ⟨s, rest, e, h1, h2⟩)))
  · exact Or.inr (Or.inr (Or.inr (Or.inr (Or.inl ⟨s, rest, a, e, h1, h2, h3⟩))))
  · exact Or.inr (Or.inr (Or.inr (Or.inr (Or.inr (Or.inl ⟨s, rest, a, f, e, h1, h2, h3, h4⟩)))))
  · exact Or.inr (Or.inr (Or.inr (Or.inr (Or.inr (Or.inr
      ⟨s, rest, a, f, c, e, h1, h2, h3, h4, h5⟩)))))
  · exact Or.inl ⟨s, rest, a, f, c, h1, h2, h3, h4, h5⟩

/-- A success line in the output comes from line 15 of a run all of whose
steps returned, and carries the target of the handle `deploy` returned. -/
theorem success_mem_stdout (w : World) (t : String)
    (h : LogArg.str (successLine t) ∈ (script w).stdout) :
    ∃ s rest a f c, w.getSigners = .returns (s :: rest) ∧ s.getAddress = .returns a ∧
      w.getContractFactory "Antrix" = .returns f ∧
      f.deploy [w.env "OWNER_ADDRESS"] = .returns c ∧
      c.waitForDeployment = .returns () ∧ t = c.target ∧
      script w = ⟨[.log (.str bannerLine), .getSigners, .getAddress,
        .log (.str (signerLine a)), .getContractFactory "Antrix",
        .deploy "Antrix" [w.env "OWNER_ADDRESS"], .waitForDeployment,
        .log (.str (successLine c.target))], none⟩ := by
  have hb := (bannerLine_ne_successLine t).symm
  have hs := fun a => (signerLine_ne_successLine a t).symm
  rcases script_cases w with ⟨e, h1, hs1⟩ | ⟨h1, hs1⟩ | ⟨s, rest, e, h1, h2, hs1⟩ |
    ⟨s, rest, a, e, h1, h2, h3, hs1⟩ | ⟨s, rest, a, f, e, h1, h2, h3, h4, hs1⟩ |
    ⟨s, rest, a, f, c, e, h1, h2, h3, h4, h5, hs1⟩ |
    ⟨s, rest, a, f, c, h1, h2, h3, h4, h5, hs1⟩
  · simp [hs1, Process.stdout, hb] at h
  · simp [hs1, Process.stdout, hb] at h
  · simp [hs1, Process.stdout, hb] at h
  · simp [hs1, Process.stdout, hb, hs] at h
  · simp [hs1, Process.stdout, hb, hs] at h
  · simp [hs1, Process.stdout, hb, hs] at h
  · simp [hs1, Process.stdout, hb, hs] at h
    exact ⟨s, rest, a, f, c, h1, h2, h3, h4, h5, successLine_injective _ _ h, hs1⟩

/-- A run with exit status 0 is one all of whose steps returned. -/
theorem script_of_status_zero (w : World) (h : (script w).status = 0) :
    ∃ a f c, w.getContractFactory "Antrix" = .returns f ∧
      f.deploy [w.env "OWNER_ADDRESS"] = .returns c ∧
      script w = ⟨[.log (.str bannerLine), .getSigners, .getAddress,
        .log (.str (signerLine a)), .getContractFactory "Antrix",
        .deploy "Antrix" [w.env "OWNER_ADDRESS"], .waitForDeployment,
        .log (.str (successLine c.target))], none⟩ := by
  rcases script_cases w with ⟨e, h1, hs1⟩ | ⟨h1, hs1⟩ | ⟨s, rest, e, h1, h2, hs1⟩ |
    ⟨s, rest, a, e, h1, h2, h3, hs1⟩ | ⟨s, rest, a, f, e, h1, h2, h3, h4, hs1⟩ |
    ⟨s, rest, a, f, c, e, h1, h2, h3, h4, h5, hs1⟩ |
    ⟨s, rest, a, f, c, h1, h2, h3, h4, h5, hs1⟩
  · simp [hs1, Process.status] at h
  · simp [hs1, Process.status] at h
  · simp [hs1, Process.status] at h
  · simp [hs1, Process.status] at h
  · simp [hs1, Process.status] at h
  · simp [hs1, Process.status] at h
  · exact ⟨a, f, c, h3, h4, hs1⟩

/-! ## Exit code -/

/-- C1: the exit code of a run is 1 exactly when some step of `main` throws
and 0, with `process.exitCode` left unset, exactly when every step returns;
whatever value `main` rejects with, the exit code is 1. -/
theorem exit_code_iff_throw (w : World) :
    ((script w).status = 1 ↔ SomeStepThrows w) ∧
    ((script w).status = 0 ↔ AllStepsReturn w) ∧
    ((script w).exitCode = none ↔ AllStepsReturn w) ∧
    (∀ e, (main w).2 = .throws e → (script w).status = 1) := by
  have hA := exitCode_of_allStepsReturn w
  have hB := exitCode_of_someStepThrows w
  refine ⟨⟨fun h => ?_, fun h => ?_⟩, ⟨fun h => ?_, fun h => ?_⟩,
    ⟨fun h => ?_, hA⟩, fun e he => ?_⟩
  · rcases allStepsReturn_or_someStepThrows w with h1 | h1
    · rw [Process.status, hA h1] at h; simp at h
    · exact h1
  · rw [Process.status, hB h]; rfl
  · rcases allStepsReturn_or_someStepThrows w with h1 | h1
    · exact h1
    · rw [Process.status, hB h1] at h; simp at h
  · rw [Process.status, hA h]; rfl
  · rcases allStepsReturn_or_someStepThrows w with h1 | h1
    · exact h1
    · rw [hB h1] at h; simp at h
  · unfold Process.status script
    rcases hm : main w with ⟨t, r⟩
    rw [hm] at he
    simp only at he
    subst he
    rfl

/-! ## Output order -/

/-- C2, refuted as stated: when `getSigners` rejects, the output is the banner
followed by the error, and holds no signer-address line. -/
theorem output_order_counterexample :
    (script unreachableWorld).stdout =
      [.str bannerLine, .thrown ⟨"Error", "could not detect network"⟩] ∧
    ¬ ∃ a, LogArg.str (signerLine a) ∈ (script unreachableWorld).stdout := by
  have h : (script unreachableWorld).stdout =
      [.str bannerLine, .thrown ⟨"Error", "could not detect network"⟩] := by decide
  refine ⟨h, ?_⟩
  rintro ⟨a, ha⟩
  rw [h] at ha
  simp at ha
  exact bannerLine_ne_signerLine a ha.symm

/-- C2, amended: the output of every run is the banner, then possibly the
signer-address line, then one last line.  When the signer cannot be obtained
(`getSigners` rejects or returns no account, or `getAddress` rejects) the
signer-address line is absent and the last line is the error.  Otherwise the
signer-address line carries the address returned and the last line is either
the error or the success line.  Neither of the lines before the last is a
success line. -/
theorem output_order (w : World) :
    ∃ mid last, (script w).stdout = .str bannerLine :: (mid ++ [last]) ∧
      ((((∃ e, w.getSigners = .throws e) ∨ w.getSigners = .returns [] ∨
          ∃ s rest e, w.getSigners = .returns (s :: rest) ∧ s.getAddress = .throws e) ∧
          mid = [] ∧ ∃ e, last = .thrown e) ∨
       (∃ s rest a, w.getSigners = .returns (s :: rest) ∧ s.getAddress = .returns a ∧
          mid = [.str (signerLine a)] ∧
          ((∃ e, last = .thrown e) ∨ ∃ t, last = .str (successLine t)))) ∧
      ∀ t, LogArg.str (successLine t) ∉ .str bannerLine :: mid := by
  have hb : ∀ t, LogArg.str (successLine t) ∉ [LogArg.str bannerLine] := by
    intro t h
    simp at h
    exact bannerLine_ne_successLine t h.symm
  have hs : ∀ a t, LogArg.str (successLine t) ∉
      [LogArg.str bannerLine, LogArg.str (signerLine a)] := by
    intro a t h
    simp at h
    rcases h with h | h
    · exact bannerLine_ne_successLine t h.symm
    · exact signerLine_ne_successLine a t h.symm
  rcases script_cases w with ⟨e, h1, hs1⟩ | ⟨h1, hs1⟩ | ⟨s, rest, e, h1, h2, hs1⟩ |
    ⟨s, rest, a, e, h1, h2, h3, hs1⟩ | ⟨s, rest, a, f, e, h1, h2, h3, h4, hs1⟩ |
    ⟨s, rest, a, f, c, e, h1, h2, h3, h4, h5, hs1⟩ |
    ⟨s, rest, a, f, c, h1, h2, h3, h4, h5, hs1⟩
  · exact ⟨[], .thrown e, by simp [hs1, Process.stdout],
      Or.inl ⟨Or.inl ⟨e, h1⟩, rfl, e, rfl⟩, hb⟩
  · exact ⟨[], .thrown undefinedDeployer, by simp [hs1, Process.stdout],
      Or.inl ⟨Or.inr (Or.inl h1), rfl, _, rfl⟩, hb⟩
  · exact ⟨[], .thrown e, by simp [hs1, Process.stdout],
      Or.inl ⟨Or.inr (Or.inr ⟨s, rest, e, h1, h2⟩), rfl, e, rfl⟩, hb⟩
  · exact ⟨[.str (signerLine a)], .thrown e, by simp [hs1, Process.stdout],
      Or.inr ⟨s, rest, a, h1, h2, rfl, Or.inl ⟨e, rfl⟩⟩, hs a⟩
  · exact ⟨[.str (signerLine a)], .thrown e, by simp [hs1, Process.stdout],
      Or.inr ⟨s, rest, a, h1, h2, rfl, Or.inl ⟨e, rfl⟩⟩, hs a⟩
  · exact ⟨[.str (signerLine a)], .thrown e, by simp [hs1, Process.stdout],
      Or.inr ⟨s, rest, a, h1, h2, rfl, Or.inl ⟨e, rfl⟩⟩, hs a⟩
  · exact ⟨[.str (signerLine a)], .str (successLine c.target), by simp [hs1, Process.stdout],
      Or.inr ⟨s, rest, a, h1, h2, rfl, Or.inr ⟨_, rfl⟩⟩, hs a⟩

/-! ## Unset owner address -/

/-- C3: with `OWNER_ADDRESS` unset, on a framework that refuses an `undefined`
owner address, every run ends with exit code 1 and submits no deployment
transaction: whatever call to `deploy` the script makes carries `undefined`
and throws, no handle is obtained, `waitForDeployment` is never reached, an
error is logged and no success line is printed. -/
theorem unset_owner (w : World) (h : w.env "OWNER_ADDRESS" = none)
    (hf : RejectsUndefinedOwner w) :
    (script w).status = 1 ∧
    submitted w = [] ∧
    (∀ call ∈ (script w).deployCalls, call = ("Antrix", [none])) ∧
    Event.waitForDeployment ∉ (script w).trace ∧
    (∃ e, LogArg.thrown e ∈ (script w).stdout) ∧
    ∀ t, LogArg.str (successLine t) ∉ (script w).stdout := by
  have hno : (script w).exitCode = some 1 →
      ∀ t, LogArg.str (successLine t) ∉ (script w).stdout := by
    intro hx t ht
    obtain ⟨_, _, _, _, _, _, _, _, _, _, _, hs2⟩ := success_mem_stdout w t ht
    rw [hs2] at hx
    simp at hx
  rcases script_cases w with ⟨e, h1, hs1⟩ | ⟨h1, hs1⟩ | ⟨s, rest, e, h1, h2, hs1⟩ |
    ⟨s, rest, a, e, h1, h2, h3, hs1⟩ | ⟨s, rest, a, f, e, h1, h2, h3, h4, hs1⟩ |
    ⟨s, rest, a, f, c, e, h1, h2, h3, h4, h5, hs1⟩ |
    ⟨s, rest, a, f, c, h1, h2, h3, h4, h5, hs1⟩
  · exact ⟨by simp [hs1, Process.status], by simp [submitted, hs1, Process.deployCalls],
      by simp [hs1, Process.deployCalls], by simp [hs1],
      ⟨e, by simp [hs1, Process.stdout]⟩, hno (by rw [hs1])⟩
  · exact ⟨by simp [hs1, Process.status], by simp [submitted, hs1, Process.deployCalls],
      by simp [hs1, Process.deployCalls], by simp [hs1],
      ⟨undefinedDeployer, by simp [hs1, Process.stdout]⟩, hno (by rw [hs1])⟩
  · exact ⟨by simp [hs1, Process.status], by simp [submitted, hs1, Process.deployCalls],
      by simp [hs1, Process.deployCalls], by simp [hs1],
      ⟨e, by simp [hs1, Process.stdout]⟩, hno (by rw [hs1])⟩
  · exact ⟨by simp [hs1, Process.status], by simp [submitted, hs1, Process.deployCalls],
      by simp [hs1, Process.deployCalls], by simp [hs1],
      ⟨e, by simp [hs1, Process.stdout]⟩, hno (by rw [hs1])⟩
  · rw [h] at h4
    exact ⟨by simp [hs1, Process.status],
      by simp [submitted, hs1, Process.deployCalls, World.created, h, h3, h4],
      by simp [hs1, Process.deployCalls, h], by simp [hs1],
      ⟨e, by simp [hs1, Process.stdout]⟩, hno (by rw [hs1])⟩
  · obtain ⟨e', he'⟩ := hf f h3
    rw [h, he'] at h4
    simp at h4
  · obtain ⟨e', he'⟩ := hf f h3
    rw [h, he'] at h4
    simp at h4

theorem unset_owner_witness :
    strictWorld.env "OWNER_ADDRESS" = none ∧
    RejectsUndefinedOwner strictWorld ∧
    (script strictWorld).status = 1 ∧
    submitted strictWorld = [] :=
  ⟨rfl, fun f hf => by cases hf; exact ⟨_, rfl⟩,
    (unset_owner strictWorld rfl (fun f hf => by cases hf; exact ⟨_, rfl⟩)).1,
    (unset_owner strictWorld rfl (fun f hf => by cases hf; exact ⟨_, rfl⟩)).2.1⟩

/-! ## Rejected deployment -/

/-- C4: when the call to `deploy` throws, the exit code is 1, the thrown error
is written to the output and no success line is printed. -/
theorem deploy_rejected (w : World) (s : Signer) (rest : List Signer) (a : String)
    (f : ContractFactory) (e : Thrown)
    (h1 : w.getSigners = .returns (s :: rest)) (h2 : s.getAddress = .returns a)
    (h3 : w.getContractFactory "Antrix" = .returns f)
    (h4 : f.deploy [w.env "OWNER_ADDRESS"] = .throws e) :
    (script w).status = 1 ∧
    (script w).stdout = [.str bannerLine, .str (signerLine a), .thrown e] ∧
    .thrown e ∈ (script w).stdout ∧
    ∀ t, LogArg.str (successLine t) ∉ (script w).stdout := by
  have hs1 : script w = ⟨[.log (.str bannerLine), .getSigners, .getAddress,
      .log (.str (signerLine a)), .getContractFactory "Antrix",
      .deploy "Antrix" [w.env "OWNER_ADDRESS"], .log (.thrown e)], some 1⟩ := by
    simp [script, main, h1, h2, h3, h4]
  refine ⟨by simp [hs1, Process.status], by simp [hs1, Process.stdout],
    by simp [hs1, Process.stdout], fun t ht => ?_⟩
  obtain ⟨_, _, _, _, _, _, _, _, _, _, _, hs2⟩ := success_mem_stdout w t ht
  rw [hs1] at hs2
  simp at hs2

theorem deploy_rejected_witness :
    rejectingWorld.getSigners = .returns [⟨.returns "0xA11CE"⟩] ∧
    (script rejectingWorld).status = 1 ∧
    (script rejectingWorld).stdout =
      [.str bannerLine, .str (signerLine "0xA11CE"), .thrown ⟨"Error", "insufficient funds"⟩] :=
  ⟨rfl, (deploy_rejected rejectingWorld _ _ _ _ _ rfl rfl rfl rfl).1,
    (deploy_rejected rejectingWorld _ _ _ _ _ rfl rfl rfl rfl).2.1⟩

/-! ## Successful run -/

/-- C5: with a signer, `OWNER_ADDRESS` set, the artifact present and the
network accepting and confirming, the last output line is the success line
with the target of the handle returned by `deploy`, and the exit code is 0. -/
theorem successful_run (w : World) (s : Signer) (rest : List Signer) (a o : String)
    (f : ContractFactory) (c : Contract)
    (h1 : w.getSigners = .returns (s :: rest)) (h2 : s.getAddress = .returns a)
    (ho : w.env "OWNER_ADDRESS" = some o)
    (h3 : w.getContractFactory "Antrix" = .returns f)
    (h4 : f.deploy [some o] = .returns c)
    (h5 : c.waitForDeployment = .returns ()) :
    (script w).stdout =
      [.str bannerLine, .str (signerLine a), .str (successLine c.target)] ∧
    (script w).stdout.getLast? = some (.str (successLine c.target)) ∧
    (script w).status = 0 ∧
    (script w).deployCalls = [("Antrix", [some o])] := by
  rw [← ho] at h4
  have hs1 : script w = ⟨[.log (.str bannerLine), .getSigners, .getAddress,
      .log (.str (signerLine a)), .getContractFactory "Antrix",
      .deploy "Antrix" [w.env "OWNER_ADDRESS"], .waitForDeployment,
      .log (.str (successLine c.target))], none⟩ := by
    simp [script, main, h1, h2, h3, h4, h5]
  refine ⟨by simp [hs1, Process.stdout], by simp [hs1, Process.stdout],
    by simp [hs1, Process.status], by simp [hs1, Process.deployCalls, ho]⟩

theorem successful_run_witness :
    sampleWorld.env "OWNER_ADDRESS" = some "0xB0B" ∧
    (script sampleWorld).stdout.getLast? = some (.str (successLine "0xC0FFEE")) ∧
    (script sampleWorld).status = 0 :=
  ⟨rfl, (successful_run sampleWorld _ _ _ "0xB0B" _ sampleContract
      rfl rfl rfl rfl rfl rfl).2.1,
    (successful_run sampleWorld _ _ _ "0xB0B" _ sampleContract
      rfl rfl rfl rfl rfl rfl).2.2.1⟩

/-! ## Number of deployments -/

/-- C6, refuted as stated: when the artifact cannot be resolved the run makes
no call to `deploy` at all. -/
theorem deployment_count_counterexample :
    (script missingArtifactWorld).deployCalls = [] ∧
    (script missingArtifactWorld).deployCalls.length ≠ 1 ∧
    (script missingArtifactWorld).status = 1 := by
  decide

/-- C6, amended: a run calls `deploy` at most once, and exactly once precisely
when a first signer exists, its `getAddress` returns and the factory is
resolved; the run ends either with the success line printed and exit code 0,
or with exit code 1 and no success line. -/
theorem deployment_count (w : World) :
    (script w).deployCalls.length ≤ 1 ∧
    ((script w).deployCalls.length = 1 ↔
      ∃ s rest a f, w.getSigners = .returns (s :: rest) ∧ s.getAddress = .returns a ∧
        w.getContractFactory "Antrix" = .returns f) ∧
    (((∃ t, LogArg.str (successLine t) ∈ (script w).stdout) ∧ (script w).status = 0) ∨
     ((∀ t, LogArg.str (successLine t) ∉ (script w).stdout) ∧ (script w).status = 1)) := by
  have hno : (script w).exitCode = some 1 →
      ∀ t, LogArg.str (successLine t) ∉ (script w).stdout := by
    intro hx t ht
    obtain ⟨_, _, _, _, _, _, _, _, _, _, _, hs2⟩ := success_mem_stdout w t ht
    rw [hs2] at hx
    simp at hx
  rcases script_cases w with ⟨e, h1, hs1⟩ | ⟨h1, hs1⟩ | ⟨s, rest, e, h1, h2, hs1⟩ |
    ⟨s, rest, a, e, h1, h2, h3, hs1⟩ | ⟨s, rest, a, f, e, h1, h2, h3, h4, hs1⟩ |
    ⟨s, rest, a, f, c, e, h1, h2, h3, h4, h5, hs1⟩ |
    ⟨s, rest, a, f, c, h1, h2, h3, h4, h5, hs1⟩
  · refine ⟨by simp [hs1, Process.deployCalls], ?_,
      Or.inr ⟨hno (by rw [hs1]), by simp [hs1, Process.status]⟩⟩
    simp [hs1, Process.deployCalls, h1]
  · refine ⟨by simp [hs1, Process.deployCalls], ?_,
      Or.inr ⟨hno (by rw [hs1]), by simp [hs1, Process.status]⟩⟩
    simp [hs1, Process.deployCalls, h1]
  · refine ⟨by simp [hs1, Process.deployCalls], ?_,
      Or.inr ⟨hno (by rw [hs1]), by simp [hs1, Process.status]⟩⟩
    simp only [hs1, Process.deployCalls, h1]
    constructor
    · intro h; simp at h
    · rintro ⟨s', rest', a', f', h6, h7, -⟩
      simp only [Outcome.returns.injEq, List.cons.injEq] at h6
      rw [← h6.1, h2] at h7
      simp at h7
  · refine ⟨by simp [hs1, Process.deployCalls], ?_,
      Or.inr ⟨hno (by rw [hs1]), by simp [hs1, Process.status]⟩⟩
    simp [hs1, Process.deployCalls, h1, h3]
  · exact ⟨by simp [hs1, Process.deployCalls],
      ⟨fun _ => ⟨s, rest, a, f, h1, h2, h3⟩, fun _ => by simp [hs1, Process.deployCalls]⟩,
      Or.inr ⟨hno (by rw [hs1]), by simp [hs1, Process.status]⟩⟩
  · exact ⟨by simp [hs1, Process.deployCalls],
      ⟨fun _ => ⟨s, rest, a, f, h1, h2, h3⟩, fun _ => by simp [hs1, Process.deployCalls]⟩,
      Or.inr ⟨hno (by rw [hs1]), by simp [hs1, Process.status]⟩⟩
  · exact ⟨by simp [hs1, Process.deployCalls],
      ⟨fun _ => ⟨s, rest, a, f, h1, h2, h3⟩, fun _ => by simp [hs1, Process.deployCalls]⟩,
      Or.inl ⟨⟨c.target, by simp [hs1, Process.stdout]⟩, by simp [hs1, Process.status]⟩⟩

/-! ## Constructor argument -/

/-- C7: every call to `deploy` is made on the factory resolved by the name
`Antrix` and carries exactly one argument, the value of `OWNER_ADDRESS`; no
other name is ever looked up; a run that reaches the deployment step makes
exactly that call; and a printed address is the target of the handle which
that call returned. -/
theorem constructor_argument (w : World) :
    (∀ call ∈ (script w).deployCalls, call = ("Antrix", [w.env "OWNER_ADDRESS"])) ∧
    (∀ n ∈ (script w).factoryLookups, n = "Antrix") ∧
    (∀ s rest a f, w.getSigners = .returns (s :: rest) → s.getAddress = .returns a →
      w.getContractFactory "Antrix" = .returns f →
      (script w).deployCalls = [("Antrix", [w.env "OWNER_ADDRESS"])]) ∧
    (∀ t, LogArg.str (successLine t) ∈ (script w).stdout →
      ∃ f c, w.getContractFactory "Antrix" = .returns f ∧
        f.deploy [w.env "OWNER_ADDRESS"] = .returns c ∧ t = c.target) := by
  refine ⟨?_, ?_, ?_, ?_⟩
  · intro call hc
    rcases script_cases w with ⟨e, h1, hs1⟩ | ⟨h1, hs1⟩ | ⟨s, rest, e, h1, h2, hs1⟩ |
      ⟨s, rest, a, e, h1, h2, h3, hs1⟩ | ⟨s, rest, a, f, e, h1, h2, h3, h4, hs1⟩ |
      ⟨s, rest, a, f, c, e, h1, h2, h3, h4, h5, hs1⟩ |
      ⟨s, rest, a, f, c, h1, h2, h3, h4, h5, hs1⟩ <;>
      simp [hs1, Process.deployCalls] at hc <;> exact hc
  · intro n hn
    rcases script_cases w with ⟨e, h1, hs1⟩ | ⟨h1, hs1⟩ | ⟨s, rest, e, h1, h2, hs1⟩ |
      ⟨s, rest, a, e, h1, h2, h3, hs1⟩ | ⟨s, rest, a, f, e, h1, h2, h3, h4, hs1⟩ |
      ⟨s, rest, a, f, c, e, h1, h2, h3, h4, h5, hs1⟩ |
      ⟨s, rest, a, f, c, h1, h2, h3, h4, h5, hs1⟩ <;>
      simp [hs1, Process.factoryLookups] at hn <;> exact hn
  · intro s rest a f h1 h2 h3
    cases h4 : f.deploy [w.env "OWNER_ADDRESS"] with
    | throws e => simp [Process.deployCalls, script, main, h1, h2, h3, h4]
    | returns c =>
      cases h5 : c.waitForDeployment <;>
        simp [Process.deployCalls, script, main, h1, h2, h3, h4, h5]
  · intro t ht
    obtain ⟨_, _, _, f, c, _, _, h3, h4, _, h6, _⟩ := success_mem_stdout w t ht
    exact ⟨f, c, h3, h4, h6⟩

theorem constructor_argument_witness :
    rejectingWorld.getSigners = .returns [⟨.returns "0xA11CE"⟩] ∧
    (script rejectingWorld).deployCalls = [("Antrix", [some "0xB0B"])] :=
  ⟨rfl, (constructor_argument rejectingWorld).2.2.1 _ _ _ _ rfl rfl rfl⟩

/-! ## Running twice -/

/-- C8: two successful runs in succession on the same network, the second one
made on the chain the first one left, on which a new contract never takes the
address of an existing one: each run calls `deploy` once with the configured
argument, the chain ends with two more contracts than it started with, the
two are different, each run prints the address of its own, and neither run
touches the file system. -/
theorem rerun_deploys_again (net : List String → World) (chain : List String)
    (h1 : (runOn net chain).1.status = 0)
    (h2 : (runOn net (runOn net chain).2).1.status = 0)
    (hfresh : FreshAt net (runOn net chain).2) :
    ∃ t1 t2, (runOn net chain).2 = chain ++ [t1] ∧
      (runOn net (runOn net chain).2).2 = chain ++ [t1, t2] ∧ t1 ≠ t2 ∧
      (runOn net chain).1.stdout.getLast? = some (.str (successLine t1)) ∧
      (runOn net (runOn net chain).2).1.stdout.getLast? = some (.str (successLine t2)) ∧
      (runOn net chain).1.deployCalls =
        [("Antrix", [(net chain).env "OWNER_ADDRESS"])] ∧
      (runOn net (runOn net chain).2).1.deployCalls =
        [("Antrix", [(net (runOn net chain).2).env "OWNER_ADDRESS"])] ∧
      (runOn net chain).1.fileAccesses = [] ∧
      (runOn net (runOn net chain).2).1.fileAccesses = [] := by
  obtain ⟨a1, f1, c1, hf1, hd1, hs1⟩ := script_of_status_zero (net chain) h1
  have hc1 : (runOn net chain).2 = chain ++ [c1.target] := by
    simp [runOn, submitted, hs1, Process.deployCalls, World.created, hf1, hd1]
  rw [hc1] at h2 hfresh ⊢
  obtain ⟨a2, f2, c2, hf2, hd2, hs2⟩ := script_of_status_zero _ h2
  have hc2 : (runOn net (chain ++ [c1.target])).2 = chain ++ [c1.target, c2.target] := by
    simp [runOn, submitted, hs2, Process.deployCalls, World.created, hf2, hd2]
  have hne : c1.target ≠ c2.target := by
    intro heq
    have := hfresh f2 _ c2 hf2 hd2
    simp [heq] at this
  refine ⟨c1.target, c2.target, rfl, hc2, hne, ?_, ?_, ?_, ?_, ?_, ?_⟩
  · simp [runOn, hs1, Process.stdout]
  · simp [runOn, hs2, Process.stdout]
  · simp [runOn, hs1, Process.deployCalls]
  · simp [runOn, hs2, Process.deployCalls]
  · simp [runOn, hs1, Process.fileAccesses]
  · simp [runOn, hs2, Process.fileAccesses]

theorem rerun_deploys_again_witness :
    (runOn sampleNet []).1.status = 0 ∧
    (runOn sampleNet (runOn sampleNet []).2).1.status = 0 ∧
    FreshAt sampleNet (runOn sampleNet []).2 ∧
    ∃ t1 t2, (runOn sampleNet []).2 = [] ++ [t1] ∧
      (runOn sampleNet (runOn sampleNet []).2).2 = [] ++ [t1, t2] ∧ t1 ≠ t2 ∧
      (runOn sampleNet []).1.stdout.getLast? = some (.str (successLine t1)) ∧
      (runOn sampleNet (runOn sampleNet []).2).1.stdout.getLast? =
        some (.str (successLine t2)) ∧
      (runOn sampleNet []).1.deployCalls =
        [("Antrix", [(sampleNet []).env "OWNER_ADDRESS"])] ∧
      (runOn sampleNet (runOn sampleNet []).2).1.deployCalls =
        [("Antrix", [(sampleNet (runOn sampleNet []).2).env "OWNER_ADDRESS"])] ∧
      (runOn sampleNet []).1.fileAccesses = [] ∧
      (runOn sampleNet (runOn sampleNet []).2).1.fileAccesses = [] :=
  have hfresh : FreshAt sampleNet (runOn sampleNet []).2 := by
    intro f args c hf hc
    cases hf
    cases hc
    decide
  ⟨by decide, by decide, hfresh,
    rerun_deploys_again sampleNet [] (by decide) (by decide) hfresh⟩

/-! ## No signer -/

/-- C9: when `getSigners` returns an empty list, the run logs the TypeError of
the member access on `undefined` and ends with exit code 1; the factory is
never resolved, `deploy` is never called and no success line is printed. -/
theorem no_signer (w : World) (h : w.getSigners = .returns []) :
    (script w).status = 1 ∧
    (script w).stdout = [.str bannerLine, .thrown undefinedDeployer] ∧
    (script w).factoryLookups = [] ∧
    (script w).deployCalls = [] ∧
    ∀ t, LogArg.str (successLine t) ∉ (script w).stdout := by
  have hs1 : script w = ⟨[.log (.str bannerLine), .getSigners,
      .log (.thrown undefinedDeployer)], some 1⟩ := by
    simp [script, main, h]
  refine ⟨by simp [hs1, Process.status], by simp [hs1, Process.stdout],
    by simp [hs1, Process.factoryLookups], by simp [hs1, Process.deployCalls],
    fun t ht => ?_⟩
  obtain ⟨_, _, _, _, _, _, _, _, _, _, _, hs2⟩ := success_mem_stdout w t ht
  rw [hs1] at hs2
  simp at hs2

theorem no_signer_witness :
    noSignerWorld.getSigners = .returns [] ∧
    (script noSignerWorld).status = 1 ∧
    (script noSignerWorld).stdout = [.str bannerLine, .thrown undefinedDeployer] :=
  ⟨rfl, (no_signer noSignerWorld rfl).1, (no_signer noSignerWorld rfl).2.1⟩

/-! ## Confirmation before success -/

/-- C10: a success line is in the output only if `waitForDeployment` on the
handle returned by `deploy` has returned, and then the trace ends with that
call followed by the success line; when `deploy` returns a handle and
`waitForDeployment` throws, no success line is printed and the exit code
is 1. -/
theorem success_only_after_confirmation (w : World) :
    (∀ t, LogArg.str (successLine t) ∈ (script w).stdout →
      ∃ f c pre, w.getContractFactory "Antrix" = .returns f ∧
        f.deploy [w.env "OWNER_ADDRESS"] = .returns c ∧
        c.waitForDeployment = .returns () ∧ t = c.target ∧
        (script w).trace = pre ++ [.waitForDeployment, .log (.str (successLine t))] ∧
        ∀ u, Event.log (.str (successLine u)) ∉ pre) ∧
    (∀ s rest a f c e, w.getSigners = .returns (s :: rest) → s.getAddress = .returns a →
      w.getContractFactory "Antrix" = .returns f →
      f.deploy [w.env "OWNER_ADDRESS"] = .returns c →
      c.waitForDeployment = .throws e →
      (∀ t, LogArg.str (successLine t) ∉ (script w).stdout) ∧
      (script w).status = 1 ∧
      (script w).deployCalls = [("Antrix", [w.env "OWNER_ADDRESS"])] ∧
      (script w).stdout = [.str bannerLine, .str (signerLine a), .thrown e]) := by
  refine ⟨fun t ht => ?_, fun s rest a f c e h1 h2 h3 h4 h5 => ?_⟩
  · obtain ⟨s, rest, a, f, c, _, _, h3, h4, h5, h6, hs1⟩ := success_mem_stdout w t ht
    refine ⟨f, c, [.log (.str bannerLine), .getSigners, .getAddress,
      .log (.str (signerLine a)), .getContractFactory "Antrix",
      .deploy "Antrix" [w.env "OWNER_ADDRESS"]], h3, h4, h5, h6, ?_, ?_⟩
    · rw [hs1, h6]; rfl
    · intro u hu
      simp at hu
      rcases hu with hu | hu
      · exact bannerLine_ne_successLine u hu.symm
      · exact signerLine_ne_successLine a u hu.symm
  · have hs1 : script w = ⟨[.log (.str bannerLine), .getSigners, .getAddress,
        .log (.str (signerLine a)), .getContractFactory "Antrix",
        .deploy "Antrix" [w.env "OWNER_ADDRESS"], .waitForDeployment,
        .log (.thrown e)], some 1⟩ := by
      simp [script, main, h1, h2, h3, h4, h5]
    refine ⟨fun t ht => ?_, by simp [hs1, Process.status],
      by simp [hs1, Process.deployCalls], by simp [hs1, Process.stdout]⟩
    obtain ⟨_, _, _, _, _, _, _, _, _, _, _, hs2⟩ := success_mem_stdout w t ht
    rw [hs1] at hs2
    simp at hs2

theorem success_only_after_confirmation_witness :
    timeoutWorld.getSigners = .returns [⟨.returns "0xA11CE"⟩] ∧
    staleContract.waitForDeployment = .throws ⟨"Error", "timeout"⟩ ∧
    (script timeoutWorld).status = 1 ∧
    (script timeoutWorld).stdout =
      [.str bannerLine, .str (signerLine "0xA11CE"), .thrown ⟨"Error", "timeout"⟩] ∧
    (∃ f c pre, sampleWorld.getContractFactory "Antrix" = .returns f ∧
        f.deploy [sampleWorld.env "OWNER_ADDRESS"] = .returns c ∧
        c.waitForDeployment = .returns () ∧ "0xC0FFEE" = c.target ∧
        (script sampleWorld).trace =
          pre ++ [.waitForDeployment, .log (.str (successLine "0xC0FFEE"))] ∧
        ∀ u, Event.log (.str (successLine u)) ∉ pre) :=
  ⟨rfl, rfl,
    ((success_only_after_confirmation timeoutWorld).2 _ _ _ _ staleContract _
      rfl rfl rfl rfl rfl).2.1,
    ((success_only_after_confirmation timeoutWorld).2 _ _ _ _ staleContract _
      rfl rfl rfl rfl rfl).2.2.2,
    (success_only_after_confirmation sampleWorld).1 "0xC0FFEE" (by decide)⟩

end Antrix
